import Mathlib

/-!
Shallow embedding of `src/pynbody/sph/kdmain.c` (the KDTree binding module of
this repository) and proofs about it.

Conventions of the embedding:
* Machine `double`/`float` values are modelled as `Int` (exact arithmetic; no
  rounding is claim-relevant here).  Distances are carried in squared form,
  as the C code itself does for neighbour lists.
* A numpy array is a `Buffer`: its dtype descriptor (`kind`, `elsize`) plus
  its payload.  A `PyObject *` that may be `NULL` is an `Option`.
* A C function that can raise a Python exception returns `Except PyErr _`
  or a `_ × Option PyErr` pair; every error return in the C happens before
  any mutation, which the embedding mirrors by returning the incoming state.
* Functions of this repository that are declared/called in `kdmain.c` but
  whose bodies live in `kd.c` / `smooth.c` (not present under `src/`) are
  modelled from the spec; each such definition says so in its doc comment.
-/

namespace Kdmain

/-- Python exception kinds raised by kdmain.c (`PyErr_SetString` calls). -/
inductive PyErr where
  | valueError (msg : String)
  | typeError (msg : String)
  | runtimeError (msg : String)
deriving DecidableEq, Repr

/-- A 3-vector of coordinates (one row of the (n,3) position array). -/
structure Vec3 where
  x : Int
  y : Int
  z : Int
deriving DecidableEq, Repr

/-- A numpy array as seen through its descriptor: `kind`/`elsize` model
`PyArray_DESCR(...)->kind` and `...->elsize`, `data` the flat payload. -/
structure Buffer where
  kind : Char
  elsize : Nat
  data : List Int
deriving DecidableEq, Repr

/-- One element of the `PARTICLE` array (kd.h): the stable original index
`iOrder` and the active mark `iMark` (kdinit sets `iMark = 1`). -/
structure Particle where
  iOrder : Nat
  iMark : Nat
deriving DecidableEq, Repr

instance : Inhabited Particle := ⟨⟨0, 1⟩⟩

instance : Inhabited Vec3 := ⟨⟨0, 0, 0⟩⟩

/-- The `KD` context (struct kdContext, kd.h) as used by kdmain.c: particle
count, active count, bucket size, the particle array, and the numpy array
references `pNumpyPos`, `pNumpyMass`, `pNumpySmooth`, `pNumpyDen`,
`pNumpyQty`, `pNumpyQtySmoothed`.  `decompAssign` holds the domain
decomposition assignment produced by `smDomainDecomposition`. -/
structure KD where
  nBucket : Int
  nParticles : Nat
  nActive : Nat
  p : List Particle
  pNumpyPos : List Vec3
  pNumpyMass : Option Buffer
  pNumpySmooth : Option Buffer
  pNumpyDen : Option Buffer
  pNumpyQty : Option Buffer
  pNumpyQtySmoothed : Option Buffer
  decompAssign : List Nat
deriving DecidableEq, Repr

/-- Value of `sizeof(double)` on the platforms this module targets. -/
def sizeofDouble : Nat := 8

/-- Embedding of `checkArray` (kdmain.c lines 312-326): `none` result means
the check passed (C returns 0), `some e` means it failed with exception `e`
(C returns 1).  A `NULL`/absent array fails with `ValueError`; an array whose
descriptor is not a C double fails with `TypeError`.  No length check is
performed. -/
def checkArray : Option Buffer → Option PyErr
  | none => some (PyErr.valueError "Unspecified array in kdtree")
  | some b =>
      if b.kind = 'f' ∧ b.elsize = sizeofDouble then none
      else some (PyErr.typeError "Incorrect numpy data type to kdtree - must match C double")

/-- Coordinate of a vector along axis 0/1/2 (x/y/z). -/
def axCoord (ax : Nat) (v : Vec3) : Int :=
  if ax = 0 then v.x else if ax = 1 then v.y else v.z

/-- Position of a particle record, read through its `iOrder` into the
position buffer (as the C does with `GET2(kd->pNumpyPos, ..., iOrder, j)`). -/
def coordOfP (pos : List Vec3) (ax : Nat) (q : Particle) : Int :=
  axCoord ax (pos.getD q.iOrder default)

/-- Insert into a ≤-sorted list (helper for the deterministic sort used by
the modelled tree build and neighbour queries). -/
def insertSorted (le : α → α → Bool) (a : α) : List α → List α
  | [] => [a]
  | b :: bs => if le a b then a :: b :: bs else b :: insertSorted le a bs

/-- Insertion sort (self-contained so that its permutation property is
available). -/
def isort (le : α → α → Bool) : List α → List α
  | [] => []
  | a :: as => insertSorted le a (isort le as)

/-- Spatial extent (max - min coordinate) of a particle list along an axis. -/
def axisExtent (pos : List Vec3) (ax : Nat) (ps : List Particle) : Int :=
  match ps.map (coordOfP pos ax) with
  | [] => 0
  | c :: cs => (cs.foldr max c) - (cs.foldr min c)

/-- Axis of greatest spatial extent, ties broken x before y before z
(spec §4.1 tie-break rule). -/
def maxExtentAxis (pos : List Vec3) (ps : List Particle) : Nat :=
  let e0 := axisExtent pos 0 ps
  let e1 := axisExtent pos 1 ps
  let e2 := axisExtent pos 2 ps
  if e1 ≤ e0 ∧ e2 ≤ e0 then 0 else if e2 ≤ e1 then 1 else 2

/-- Ordering of particles by coordinate along a fixed axis. -/
def leAxis (pos : List Vec3) (ax : Nat) (a b : Particle) : Bool :=
  decide (coordOfP pos ax a ≤ coordOfP pos ax b)

/-- Modelled from the spec: `kdBuildTree` lives in `kd.c`, which is not under
`src/`.  Spec §4.1: recursive spatial partition — at each node select the
axis of greatest extent, partition the particles about a near-median split
along that axis (physically reordering them in place), recurse on each half,
and stop at a leaf once the count is at most the bucket capacity.  Only the
effect on the particle array (the reordering) is modelled; `fuel` bounds the
recursion depth and is supplied as the particle count by `kdBuildTree`. -/
def kdBuildAux (nBucket : Nat) (pos : List Vec3) : Nat → List Particle → List Particle
  | 0, ps => ps
  | fuel + 1, ps =>
      if ps.length ≤ nBucket then ps
      else
        kdBuildAux nBucket pos fuel
            ((isort (leAxis pos (maxExtentAxis pos ps)) ps).take (ps.length / 2)) ++
          kdBuildAux nBucket pos fuel
            ((isort (leAxis pos (maxExtentAxis pos ps)) ps).drop (ps.length / 2))

/-- Modelled from the spec: wrapper giving `kdBuildAux` its fuel. -/
def kdBuildTree (nBucket : Int) (pos : List Vec3) (ps : List Particle) : List Particle :=
  kdBuildAux nBucket.toNat pos ps.length ps

/-- Body of `kdinit` (kdmain.c lines 119-170) after argument parsing: record
the particle count, retain the position and mass arrays, null the smooth and
density references, allocate the particle array with `iOrder = i`,
`iMark = 1`, and build the tree.  There is no validation of `nBucket` or of
the row count in the C body. -/
def kdinitState (pos : List Vec3) (mass : Buffer) (nBucket : Int) : KD :=
  let nbodies := pos.length
  let particles := (List.range nbodies).map (fun i => Particle.mk i 1)
  { nBucket := nBucket
    nParticles := nbodies
    nActive := nbodies
    p := kdBuildTree nBucket pos particles
    pNumpyPos := pos
    pNumpyMass := some mass
    pNumpySmooth := none
    pNumpyDen := none
    pNumpyQty := none
    pNumpyQtySmoothed := none
    decompAssign := [] }

/-- The `kdinit` entry point (kdmain.c lines 119-170).  After
`PyArg_ParseTuple` succeeds (argument marshalling, outside this embedding),
the C function has no error exit: it unconditionally builds and returns the
capsule.  In particular no `InvalidArgument`-style check of `nBucket < 1` or
`n == 0` exists in the source. -/
def kdinit (pos : List Vec3) (mass : Buffer) (nBucket : Int) : Except PyErr KD :=
  Except.ok (kdinitState pos mass nBucket)

/- ------------------------------------------------------------------ -/
/- Permutation facts about the modelled build.                         -/
/- ------------------------------------------------------------------ -/

theorem insertSorted_perm (le : α → α → Bool) (a : α) (l : List α) :
    List.Perm (insertSorted le a l) (a :: l) := by
  induction l with
  | nil => exact List.Perm.refl _
  | cons b bs ih =>
      show List.Perm (if le a b then a :: b :: bs else b :: insertSorted le a bs) _
      by_cases h : le a b = true
      · rw [if_pos h]
      · rw [if_neg h]
        exact List.Perm.trans (List.Perm.cons b ih) (List.Perm.swap a b bs)

theorem isort_perm (le : α → α → Bool) (l : List α) :
    List.Perm (isort le l) l := by
  induction l with
  | nil => exact List.Perm.refl _
  | cons a as ih =>
      exact List.Perm.trans (insertSorted_perm le a (isort le as)) (List.Perm.cons a ih)

theorem kdBuildAux_perm (nBucket : Nat) (pos : List Vec3) :
    ∀ (fuel : Nat) (ps : List Particle), List.Perm (kdBuildAux nBucket pos fuel ps) ps := by
  intro fuel
  induction fuel with
  | zero => intro ps; exact List.Perm.refl _
  | succ n ih =>
      intro ps
      show List.Perm (if ps.length ≤ nBucket then ps else _) ps
      by_cases h : ps.length ≤ nBucket
      · rw [if_pos h]
      · rw [if_neg h]
        refine List.Perm.trans (List.Perm.append (ih _) (ih _)) ?_
        rw [List.take_append_drop]
        exact isort_perm _ ps

theorem kdBuildTree_perm (nBucket : Int) (pos : List Vec3) (ps : List Particle) :
    List.Perm (kdBuildTree nBucket pos ps) ps :=
  kdBuildAux_perm _ pos ps.length ps

/-- C1: After `build(positions, bucketCapacity)` on `n ≥ 1` particles
with `bucketCapacity ≥ 1`, the multiset of `iOrder` values across the
tree's particle array is exactly `{0, …, n-1}`, each value once: the build
permutes the physical order but never drops or duplicates a particle. -/
theorem build_iOrder_permutation (pos : List Vec3) (mass : Buffer) (nBucket : Int)
    (hn : 1 ≤ pos.length) (hb : 1 ≤ nBucket) :
    List.Perm ((kdinitState pos mass nBucket).p.map Particle.iOrder)
      (List.range pos.length) := by
  have h1 : List.Perm ((kdinitState pos mass nBucket).p)
      ((List.range pos.length).map (fun i => Particle.mk i 1)) :=
    kdBuildTree_perm nBucket pos _
  have h2 := List.Perm.map Particle.iOrder h1
  refine List.Perm.trans h2 ?_
  rw [List.map_map]
  have hcomp : (Particle.iOrder ∘ fun i => Particle.mk i 1) = id := rfl
  rw [hcomp, List.map_id]

/-- Witness for C1 at a concrete input: three particles, bucket capacity 1. -/
theorem build_iOrder_permutation_witness :
    (1 ≤ ([⟨0,0,0⟩, ⟨2,1,0⟩, ⟨1,5,3⟩] : List Vec3).length ∧ (1:Int) ≤ 1) ∧
      List.Perm ((kdinitState [⟨0,0,0⟩, ⟨2,1,0⟩, ⟨1,5,3⟩] ⟨'f', 8, [1,1,1]⟩ 1).p.map
        Particle.iOrder) (List.range 3) :=
  ⟨⟨by decide, by decide⟩,
    build_iOrder_permutation [⟨0,0,0⟩, ⟨2,1,0⟩, ⟨1,5,3⟩] ⟨'f', 8, [1,1,1]⟩ 1
      (by decide) (by decide)⟩

/- ------------------------------------------------------------------ -/
/- C2: kdinit performs no validation.                                  -/
/- ------------------------------------------------------------------ -/

theorem kdBuildAux_length (nBucket : Nat) (pos : List Vec3) (fuel : Nat)
    (ps : List Particle) : (kdBuildAux nBucket pos fuel ps).length = ps.length :=
  (kdBuildAux_perm nBucket pos fuel ps).length_eq

/-- C2 counterexample: The claim says `build` fails with
`InvalidArgument` and produces no index whenever `bucketCapacity < 1` or
`n == 0`.  At the concrete input `bucketCapacity = 0` (and again at `n = 0`)
`kdinit` raises nothing and hands back a fully built index. -/
theorem kdinit_no_validation_cex :
    kdinit [⟨0,0,0⟩] ⟨'f', 8, [1]⟩ 0 = Except.ok (kdinitState [⟨0,0,0⟩] ⟨'f', 8, [1]⟩ 0) ∧
      (kdinitState [⟨0,0,0⟩] ⟨'f', 8, [1]⟩ 0).nParticles = 1 ∧
      kdinit [] ⟨'f', 8, []⟩ 4 = Except.ok (kdinitState [] ⟨'f', 8, []⟩ 4) :=
  ⟨rfl, rfl, rfl⟩

/-- C2 amended: `kdinit` performs no validation of `bucketCapacity` or of
the particle count: for every input it succeeds and produces an index whose
particle array holds exactly the `n` input rows; no error (in particular no
`InvalidArgument`) is ever raised after argument parsing. -/
theorem kdinit_always_succeeds (pos : List Vec3) (mass : Buffer) (nBucket : Int) :
    kdinit pos mass nBucket = Except.ok (kdinitState pos mass nBucket) ∧
      (kdinitState pos mass nBucket).nParticles = pos.length ∧
      (kdinitState pos mass nBucket).p.length = pos.length := by
  refine ⟨rfl, rfl, ?_⟩
  simpa [kdinitState, kdBuildTree] using
    kdBuildAux_length nBucket.toNat pos pos.length
      ((List.range pos.length).map (fun i => Particle.mk i 1))

/- ------------------------------------------------------------------ -/
/- Field binding slots (set_arrayref / get_arrayref).                  -/
/- ------------------------------------------------------------------ -/

/-- The five binding slots of the `switch(arid)` in `set_arrayref` /
`get_arrayref`: 0 smoothing, 1 density, 2 mass, 3 quantity,
4 smoothed quantity. -/
inductive Slot where
  | smooth
  | den
  | mass
  | qty
  | qtySmoothed
deriving DecidableEq, Repr

/-- The `switch(arid)` mapping of both `set_arrayref` (lines 341-360) and
`get_arrayref` (lines 380-399): slot ids 0-4 select a field, anything else
falls into the `default:` error branch (`none` here). -/
def slotOf (arid : Int) : Option Slot :=
  if arid = 0 then some Slot.smooth
  else if arid = 1 then some Slot.den
  else if arid = 2 then some Slot.mass
  else if arid = 3 then some Slot.qty
  else if arid = 4 then some Slot.qtySmoothed
  else none

/-- Read the buffer reference stored in a slot. -/
def getSlot (kd : KD) : Slot → Option Buffer
  | Slot.smooth => kd.pNumpySmooth
  | Slot.den => kd.pNumpyDen
  | Slot.mass => kd.pNumpyMass
  | Slot.qty => kd.pNumpyQty
  | Slot.qtySmoothed => kd.pNumpyQtySmoothed

/-- Replace the buffer reference stored in a slot (the `*existing = arobj`
assignment of `set_arrayref`). -/
def setSlot (kd : KD) (s : Slot) (b : Option Buffer) : KD :=
  match s with
  | Slot.smooth => { kd with pNumpySmooth := b }
  | Slot.den => { kd with pNumpyDen := b }
  | Slot.mass => { kd with pNumpyMass := b }
  | Slot.qty => { kd with pNumpyQty := b }
  | Slot.qtySmoothed => { kd with pNumpyQtySmoothed := b }

/-- Embedding of `set_arrayref` (kdmain.c lines 330-369).  Order as in the
source: `checkArray(arobj)` first, then the slot switch (unknown slot →
`ValueError`), then `checkArray(arobj)` again, then the replacement.  Every
error return happens before the assignment, so the incoming `kd` is returned
untouched on failure. -/
def set_arrayref (kd : KD) (arid : Int) (arobj : Buffer) : KD × Option PyErr :=
  match checkArray (some arobj) with
  | some e => (kd, some e)
  | none =>
      match slotOf arid with
      | none => (kd, some (PyErr.valueError "Unknown array to set for KD tree"))
      | some s =>
          match checkArray (some arobj) with
          | some e => (kd, some e)
          | none => (setSlot kd s (some arobj), none)

/-- Embedding of the `get_arrayref` C function (kdmain.c lines 371-406):
slot switch (unknown slot → `ValueError`), then `Py_None` (`none`) for an
unbound slot or the stored buffer reference.  The body contains no
assignment to any `kd` field. -/
def get_arrayref (kd : KD) (arid : Int) : Except PyErr (Option Buffer) :=
  match slotOf arid with
  | none => Except.error (PyErr.valueError "Unknown array to get from KD tree")
  | some s => Except.ok (getSlot kd s)

/-- The `kdmain_methods` table (kdmain.c lines 73-90): each exposed Python
method name paired with the name of the C function it dispatches to.  Note
line 84: the name `"get_arrayref"` dispatches to the C function
`set_arrayref`. -/
def kdmain_methods : List (String × String) :=
  [("init", "kdinit"), ("free", "kdfree"),
   ("nn_start", "nn_start"), ("nn_next", "nn_next"),
   ("nn_stop", "nn_stop"), ("nn_rewind", "nn_rewind"),
   ("set_arrayref", "set_arrayref"), ("get_arrayref", "set_arrayref"),
   ("domain_decomposition", "domain_decomposition"), ("populate", "populate")]

/-- The `PyArg_ParseTuple` format string each C function uses for its
argument tuple (one letter per expected argument). -/
def argFormat : List (String × String) :=
  [("kdinit", "OOi"), ("kdfree", "O"),
   ("nn_start", "Oi"), ("nn_next", "OO"),
   ("nn_stop", "OO"), ("nn_rewind", "O"),
   ("set_arrayref", "OiO"), ("get_arrayref", "Oi"),
   ("domain_decomposition", "Oi"), ("populate", "OOii")]

/- ------------------------------------------------------------------ -/
/- C3: bindField checks only the element type, never the length.       -/
/- ------------------------------------------------------------------ -/

/-- A two-particle index used as a concrete state in counterexamples. -/
def demoKd2 : KD := kdinitState [⟨0,0,0⟩, ⟨1,2,3⟩] ⟨'f', 8, [1,1]⟩ 2

/-- A well-typed double buffer whose length (5) is NOT the particle count. -/
def badLenBuf : Buffer := ⟨'f', 8, [1,2,3,4,5]⟩

/-- C3 counterexample: The claim says `bindField` accepts a buffer
exactly when its element type is double AND its element count equals the
particle count.  On the two-particle index `demoKd2`, the five-element
double buffer `badLenBuf` is accepted and bound: no length check exists in
`checkArray` or `set_arrayref`. -/
theorem set_arrayref_no_length_check_cex :
    badLenBuf.data.length ≠ demoKd2.nParticles ∧
      set_arrayref demoKd2 0 badLenBuf = (setSlot demoKd2 Slot.smooth (some badLenBuf), none) ∧
      (set_arrayref demoKd2 0 badLenBuf).1.pNumpySmooth = some badLenBuf := by
  refine ⟨by decide, rfl, rfl⟩

/-- C3 amended: For every slot in {Smoothing, Density, Mass, Quantity,
QuantitySmoothed}, `set_arrayref` accepts a buffer and replaces the prior
binding for that slot exactly when the buffer's element type is double
(descriptor kind `'f'` and element size `sizeof(double)`); the element count
is not checked.  A buffer failing the type check is rejected with a
`TypeError` and the existing binding for that slot (and every other slot) is
left unchanged. -/
theorem set_arrayref_type_gate (kd : KD) (arid : Int) (s : Slot) (buf : Buffer)
    (hs : slotOf arid = some s) :
    ((buf.kind = 'f' ∧ buf.elsize = sizeofDouble) →
        set_arrayref kd arid buf = (setSlot kd s (some buf), none)) ∧
      (¬ (buf.kind = 'f' ∧ buf.elsize = sizeofDouble) →
        (set_arrayref kd arid buf).1 = kd ∧
          (set_arrayref kd arid buf).2 =
            some (PyErr.typeError
              "Incorrect numpy data type to kdtree - must match C double")) := by
  constructor
  · intro hok
    simp [set_arrayref, checkArray, hok, hs]
  · intro hbad
    simp [set_arrayref, checkArray, hbad]

/-- Witness for C3's amended theorem: slot 1 (density), a valid double
buffer is installed; an integer-typed buffer is rejected with state
unchanged. -/
theorem set_arrayref_type_gate_witness :
    (slotOf 1 = some Slot.den ∧
      set_arrayref demoKd2 1 ⟨'f', 8, [3,4]⟩ =
        (setSlot demoKd2 Slot.den (some ⟨'f', 8, [3,4]⟩), none)) ∧
      ((set_arrayref demoKd2 1 ⟨'i', 4, [3,4]⟩).1 = demoKd2 ∧
        (set_arrayref demoKd2 1 ⟨'i', 4, [3,4]⟩).2 =
          some (PyErr.typeError
            "Incorrect numpy data type to kdtree - must match C double")) :=
  ⟨⟨by decide,
      (set_arrayref_type_gate demoKd2 1 Slot.den ⟨'f', 8, [3,4]⟩ (by decide)).1
        (by decide)⟩,
    (set_arrayref_type_gate demoKd2 1 Slot.den ⟨'i', 4, [3,4]⟩ (by decide)).2
      (by decide)⟩

/- ------------------------------------------------------------------ -/
/- C4: the exposed getField is wired to the wrong C function.          -/
/- ------------------------------------------------------------------ -/

/-- C4, code bug: The C function `get_arrayref` itself satisfies the
claim: after binding a buffer to a slot it returns that buffer, on an
unbound slot it returns `Py_None` (Unbound), and its body never modifies a
binding.  But the module's method table (kdmain.c line 84) dispatches the
exposed name `"get_arrayref"` to the C function `set_arrayref`, whose
`"OiO"` tuple format cannot parse the two-argument `getField` call — so the
claimed behaviour is unreachable from the host. -/
theorem get_arrayref_dispatch_bug :
    kdmain_methods.lookup "get_arrayref" = some "set_arrayref" ∧
      argFormat.lookup "set_arrayref" = some "OiO" ∧
      argFormat.lookup "get_arrayref" = some "Oi" ∧
      get_arrayref (set_arrayref demoKd2 0 ⟨'f', 8, [7,9]⟩).1 0 =
        Except.ok (some ⟨'f', 8, [7,9]⟩) ∧
      get_arrayref demoKd2 0 = Except.ok none := by
  refine ⟨rfl, rfl, rfl, rfl, rfl⟩

/- ------------------------------------------------------------------ -/
/- C10: out-of-range slot ids fail and change nothing.                 -/
/- ------------------------------------------------------------------ -/

/-- Out-of-range slot ids land in the `default:` branch. -/
theorem slotOf_out_of_range (arid : Int) (h : arid < 0 ∨ 4 < arid) :
    slotOf arid = none := by
  have h0 : arid ≠ 0 := by omega
  have h1 : arid ≠ 1 := by omega
  have h2 : arid ≠ 2 := by omega
  have h3 : arid ≠ 3 := by omega
  have h4 : arid ≠ 4 := by omega
  simp [slotOf, h0, h1, h2, h3, h4]

/-- C10: Calling `set_arrayref` or `get_arrayref` with a slot id outside
{0, 1, 2, 3, 4} fails with an error, and the failing `set_arrayref` call
returns the index state untouched — every existing field binding (smoothing,
density, mass, quantity, smoothed quantity) is unchanged. -/
theorem arrayref_unknown_slot (kd : KD) (arid : Int) (buf : Buffer)
    (h : arid < 0 ∨ 4 < arid) :
    (set_arrayref kd arid buf).1 = kd ∧
      (set_arrayref kd arid buf).2.isSome = true ∧
      get_arrayref kd arid =
        Except.error (PyErr.valueError "Unknown array to get from KD tree") := by
  have hs := slotOf_out_of_range arid h
  refine ⟨?_, ?_, ?_⟩
  · unfold set_arrayref
    cases hca : checkArray (some buf) with
    | none => rw [hs]
    | some e => rfl
  · unfold set_arrayref
    cases hca : checkArray (some buf) with
    | none => rw [hs]; rfl
    | some e => rfl
  · unfold get_arrayref
    rw [hs]

/-- Witness for C10: slot id 7 on a state with a smoothing binding. -/
theorem arrayref_unknown_slot_witness :
    ((4:Int) < 7) ∧
      ((set_arrayref (set_arrayref demoKd2 0 ⟨'f', 8, [1,2]⟩).1 7 ⟨'f', 8, [9,9]⟩).1 =
          (set_arrayref demoKd2 0 ⟨'f', 8, [1,2]⟩).1 ∧
        (set_arrayref (set_arrayref demoKd2 0 ⟨'f', 8, [1,2]⟩).1 7 ⟨'f', 8, [9,9]⟩).2.isSome
            = true ∧
        get_arrayref (set_arrayref demoKd2 0 ⟨'f', 8, [1,2]⟩).1 7 =
          Except.error (PyErr.valueError "Unknown array to get from KD tree")) :=
  ⟨by decide,
    arrayref_unknown_slot (set_arrayref demoKd2 0 ⟨'f', 8, [1,2]⟩).1 7 ⟨'f', 8, [9,9]⟩
      (Or.inr (by decide))⟩

/- ------------------------------------------------------------------ -/
/- C9: teardown (kdfree).                                              -/
/- ------------------------------------------------------------------ -/

/-- Resource ledger for one index: the number of outstanding node-memory
allocations (released by `kdFinish`) and the engine-held reference count of
each numpy buffer (`Py_INCREF`/`Py_XDECREF`).  A freshly built index with a
buffer bound in a slot holds exactly one reference to it. -/
structure RcState where
  nodeAlloc : Int
  posRc : Int
  massRc : Int
  smoothRc : Int
  denRc : Int
  qtyRc : Int
  qtySmoothedRc : Int
deriving DecidableEq, Repr

/-- Embedding of `kdfree` (kdmain.c lines 175-189) acting on the resource
ledger.  `kdFinish(kd)` (kd.c, not under src/; spec §4.1: "releases node
memory") releases the node allocation; then `Py_XDECREF` drops one
reference each to `pNumpyPos`, `pNumpyMass`, `pNumpySmooth`, `pNumpyDen` —
a decrement happens whenever the stored pointer is non-NULL, and nothing in
the body clears the stored pointers or guards against a repeated call.  No
`Py_XDECREF` of `pNumpyQty` or `pNumpyQtySmoothed` appears in the body. -/
def kdfree (kd : KD) (s : RcState) : KD × RcState :=
  (kd,
    { nodeAlloc := s.nodeAlloc - 1
      posRc := s.posRc - 1
      massRc := if kd.pNumpyMass.isSome then s.massRc - 1 else s.massRc
      smoothRc := if kd.pNumpySmooth.isSome then s.smoothRc - 1 else s.smoothRc
      denRc := if kd.pNumpyDen.isSome then s.denRc - 1 else s.denRc
      qtyRc := s.qtyRc
      qtySmoothedRc := s.qtySmoothedRc })

/-- A one-particle index with a quantity buffer bound in slot 3. -/
def demoKdQty : KD :=
  (set_arrayref (kdinitState [⟨0,0,0⟩] ⟨'f', 8, [1]⟩ 1) 3 ⟨'f', 8, [5]⟩).1

/-- Ledger of `demoKdQty` right after build and bind: one node allocation,
one engine reference each to the position, mass and quantity buffers. -/
def demoRc : RcState := ⟨1, 1, 1, 0, 0, 1, 0⟩

/-- C9 counterexample: The claim says teardown releases the references
to all bound external buffers and that a second call is a no-op that
releases nothing twice.  Concretely: on `demoKdQty` the bound quantity
buffer's reference is never released (its count stays 1), and a second
`kdfree` call releases the position, mass and node resources again, driving
their counts to -1 — a double release, not a no-op. -/
theorem kdfree_not_idempotent_cex :
    (kdfree demoKdQty demoRc).2.qtyRc = 1 ∧
      (kdfree demoKdQty (kdfree demoKdQty demoRc).2).2.posRc = -1 ∧
      (kdfree demoKdQty (kdfree demoKdQty demoRc).2).2.massRc = -1 ∧
      (kdfree demoKdQty (kdfree demoKdQty demoRc).2).2.nodeAlloc = -1 := by
  refine ⟨by decide, by decide, by decide, by decide⟩

/-- C9 amended: `kdfree` releases the index's node memory and one
reference each to the position, mass, smoothing and density buffers (each
whenever its pointer is bound, as `Py_XDECREF` does; the quantity and
smoothed-quantity references are never released), and it is NOT idempotent:
it never inspects or clears the torn-down state, so a second call on the
same index repeats every one of those releases. -/
theorem kdfree_releases_each_call (kd : KD) (s : RcState) :
    ((kdfree kd s).1 = kd ∧
      (kdfree kd s).2.nodeAlloc = s.nodeAlloc - 1 ∧
      (kdfree kd s).2.posRc = s.posRc - 1 ∧
      (kdfree kd s).2.qtyRc = s.qtyRc ∧
      (kdfree kd s).2.qtySmoothedRc = s.qtySmoothedRc ∧
      (kdfree kd (kdfree kd s).2).2.nodeAlloc = s.nodeAlloc - 2 ∧
      (kdfree kd (kdfree kd s).2).2.posRc = s.posRc - 2) ∧
      (kd.pNumpyMass.isSome = true →
        (kdfree kd s).2.massRc = s.massRc - 1 ∧
          (kdfree kd (kdfree kd s).2).2.massRc = s.massRc - 2) ∧
      (kd.pNumpySmooth.isSome = true →
        (kdfree kd s).2.smoothRc = s.smoothRc - 1 ∧
          (kdfree kd (kdfree kd s).2).2.smoothRc = s.smoothRc - 2) ∧
      (kd.pNumpyDen.isSome = true →
        (kdfree kd s).2.denRc = s.denRc - 1 ∧
          (kdfree kd (kdfree kd s).2).2.denRc = s.denRc - 2) := by
  refine ⟨⟨rfl, rfl, rfl, rfl, rfl, ?_, ?_⟩, ?_, ?_, ?_⟩
  · show s.nodeAlloc - 1 - 1 = s.nodeAlloc - 2
    omega
  · show s.posRc - 1 - 1 = s.posRc - 2
    omega
  · intro h
    dsimp only [kdfree]
    simp only [h, if_true]
    exact ⟨trivial, by omega⟩
  · intro h
    dsimp only [kdfree]
    simp only [h, if_true]
    exact ⟨trivial, by omega⟩
  · intro h
    dsimp only [kdfree]
    simp only [h, if_true]
    exact ⟨trivial, by omega⟩

/-- A one-particle index with every releasable slot bound: position and
mass from the build, smoothing (slot 0), density (slot 1) and quantity
(slot 3) bound afterwards. -/
def demoKdBound : KD :=
  (set_arrayref
    ((set_arrayref
      ((set_arrayref (kdinitState [⟨0,0,0⟩] ⟨'f', 8, [1]⟩ 1) 0 ⟨'f', 8, [1]⟩).1)
      1 ⟨'f', 8, [0]⟩).1)
    3 ⟨'f', 8, [5]⟩).1

/-- Ledger of `demoKdBound`: one engine reference per bound buffer and one
node allocation. -/
def demoRcB : RcState := ⟨1, 1, 1, 1, 1, 1, 0⟩

/-- Witness for C9's amended theorem: with mass, smoothing and density all
bound, each release happens on the first call and again on the second. -/
theorem kdfree_releases_each_call_witness :
    (demoKdBound.pNumpyMass.isSome = true ∧ demoKdBound.pNumpySmooth.isSome = true ∧
      demoKdBound.pNumpyDen.isSome = true) ∧
      (((kdfree demoKdBound demoRcB).2.massRc = demoRcB.massRc - 1 ∧
        (kdfree demoKdBound (kdfree demoKdBound demoRcB).2).2.massRc = demoRcB.massRc - 2) ∧
       ((kdfree demoKdBound demoRcB).2.smoothRc = demoRcB.smoothRc - 1 ∧
        (kdfree demoKdBound (kdfree demoKdBound demoRcB).2).2.smoothRc = demoRcB.smoothRc - 2) ∧
       ((kdfree demoKdBound demoRcB).2.denRc = demoRcB.denRc - 1 ∧
        (kdfree demoKdBound (kdfree demoKdBound demoRcB).2).2.denRc = demoRcB.denRc - 2)) :=
  ⟨⟨by decide, by decide, by decide⟩,
    (kdfree_releases_each_call demoKdBound demoRcB).2.1 (by decide),
    (kdfree_releases_each_call demoKdBound demoRcB).2.2.1 (by decide),
    (kdfree_releases_each_call demoKdBound demoRcB).2.2.2 (by decide)⟩

/- ------------------------------------------------------------------ -/
/- C7: domain_decomposition validation.                                -/
/- ------------------------------------------------------------------ -/

/-- Modelled from the spec: `smDomainDecomposition` lives in `smooth.c`,
which is not under `src/`.  Spec §4.3: it assigns interleaved particle-index
ranges to the requested workers; `numWorkers == 0` is "a no-op meaning
single worker, no decomposition". -/
def smDomainDecomposition (kd : KD) (nproc : Int) : KD :=
  if nproc = 0 then kd
  else { kd with decompAssign := (List.range kd.nParticles).map (fun i => i % nproc.toNat) }

/-- Embedding of `domain_decomposition` (kdmain.c lines 408-427): check the
smoothing binding with `checkArray`, then reject `nproc < 0` with a
`ValueError`, then call `smDomainDecomposition`.  Both error returns happen
before the call, leaving the state untouched. -/
def domain_decomposition (kd : KD) (nproc : Int) : KD × Option PyErr :=
  match checkArray kd.pNumpySmooth with
  | some e => (kd, some e)
  | none =>
      if nproc < 0 then
        (kd, some (PyErr.valueError "Invalid number of processors"))
      else (smDomainDecomposition kd nproc, none)

/-- C7: `domain_decomposition` raises an error exactly when
`numWorkers < 0` or the smoothing-length binding is absent or not a double
buffer; `numWorkers == 0` passes validation and is a legal no-op (the state
is returned unchanged with no error); and on any validation failure the
state is not modified. -/
theorem domain_decomposition_validation (kd : KD) (nproc : Int) :
    ((domain_decomposition kd nproc).2.isSome = true ↔
        (checkArray kd.pNumpySmooth ≠ none ∨ nproc < 0)) ∧
      (checkArray kd.pNumpySmooth = none → nproc = 0 →
        domain_decomposition kd nproc = (kd, none)) ∧
      ((domain_decomposition kd nproc).2.isSome = true →
        (domain_decomposition kd nproc).1 = kd) := by
  refine ⟨?_, ?_, ?_⟩
  · cases hca : checkArray kd.pNumpySmooth with
    | some e => simp [domain_decomposition, hca]
    | none =>
        by_cases hn : nproc < 0
        · simp [domain_decomposition, hca, hn]
        · simp [domain_decomposition, hca, hn]
  · intro hca hz
    simp [domain_decomposition, hca, hz, smDomainDecomposition]
  · intro herr
    cases hca : checkArray kd.pNumpySmooth with
    | some e => simp [domain_decomposition, hca]
    | none =>
        by_cases hn : nproc < 0
        · simp [domain_decomposition, hca, hn]
        · exfalso
          rw [domain_decomposition] at herr
          rw [hca] at herr
          simp [hn] at herr

/-- A one-particle index with a valid smoothing binding. -/
def demoKdS : KD :=
  (set_arrayref (kdinitState [⟨0,0,0⟩] ⟨'f', 8, [1]⟩ 1) 0 ⟨'f', 8, [2]⟩).1

/-- Witness for C7: with the smoothing slot bound, `numWorkers = 0` is
accepted and changes nothing. -/
theorem domain_decomposition_validation_witness :
    checkArray demoKdS.pNumpySmooth = none ∧
      domain_decomposition demoKdS 0 = (demoKdS, none) :=
  ⟨by decide,
    (domain_decomposition_validation demoKdS 0).2.1 (by decide) rfl⟩

/- ------------------------------------------------------------------ -/
/- Buffer reads/writes and particle lookups.                           -/
/- ------------------------------------------------------------------ -/

/-- Read element `j` of a possibly-absent buffer (the `GET` macro of
smooth.h applied to a stored numpy reference). -/
def getArr (b : Option Buffer) (j : Nat) : Int :=
  match b with
  | none => 0
  | some bb => bb.data.getD j 0

/-- Particle record at physical index `i`. -/
def pAt (kd : KD) (i : Nat) : Particle := kd.p.getD i default

/-- Original index (`iOrder`) of the particle at physical index `i`. -/
def ordAt (kd : KD) (i : Nat) : Nat := (pAt kd i).iOrder

/-- Position of the particle at physical index `i`, read through `iOrder`
into the position buffer (`GET2(kd->pNumpyPos, kd->p[i].iOrder, j)`). -/
def posOf (kd : KD) (i : Nat) : Vec3 := kd.pNumpyPos.getD (ordAt kd i) default

/-- Squared Euclidean distance between two positions. -/
def dist2 (a b : Vec3) : Int :=
  (a.x - b.x) * (a.x - b.x) + (a.y - b.y) * (a.y - b.y) + (a.z - b.z) * (a.z - b.z)

/-- Write value `v` at index `j` of the smoothing buffer (the `SETSMOOTH`
macro); identity when no smoothing buffer is bound. -/
def setSmoothAt (kd : KD) (j : Nat) (v : Int) : KD :=
  match kd.pNumpySmooth with
  | none => kd
  | some b => { kd with pNumpySmooth := some { b with data := b.data.set j v } }

theorem getD_set_self (l : List Int) (j : Nat) (v : Int) (h : j < l.length) :
    (l.set j v).getD j 0 = v := by
  induction l generalizing j with
  | nil => simp at h
  | cons a as ih =>
      cases j with
      | zero => rfl
      | succ n =>
          have hn : n < as.length := by simpa using h
          simpa [List.getD] using ih n hn

theorem getD_set_ne (l : List Int) (j m : Nat) (v : Int) (h : j ≠ m) :
    (l.set j v).getD m 0 = l.getD m 0 := by
  induction l generalizing j m with
  | nil => rfl
  | cons a as ih =>
      cases j with
      | zero =>
          cases m with
          | zero => exact absurd rfl h
          | succ k => rfl
      | succ n =>
          cases m with
          | zero => rfl
          | succ k =>
              have hk : n ≠ k := fun hc => h (by rw [hc])
              simpa [List.getD] using ih n k hk

theorem p_setSmoothAt (kd : KD) (j : Nat) (v : Int) : (setSmoothAt kd j v).p = kd.p := by
  unfold setSmoothAt
  cases kd.pNumpySmooth <;> rfl

theorem ordAt_setSmoothAt (kd : KD) (j : Nat) (v : Int) (i : Nat) :
    ordAt (setSmoothAt kd j v) i = ordAt kd i := by
  unfold ordAt pAt
  rw [p_setSmoothAt]

theorem getArr_setSmoothAt_self (kd : KD) (sb : Buffer)
    (hsb : kd.pNumpySmooth = some sb) (j : Nat) (h : j < sb.data.length) (v : Int) :
    getArr (setSmoothAt kd j v).pNumpySmooth j = v := by
  unfold setSmoothAt
  rw [hsb]
  simpa [getArr] using getD_set_self sb.data j v h

/- ------------------------------------------------------------------ -/
/- Smoothing context and the incremental query protocol (C8).          -/
/- ------------------------------------------------------------------ -/

/-- Deterministic neighbour ordering: by squared distance, ties broken by
the lower physical index (spec §4.1 tie-break rule). -/
def distLe (a b : Nat × Int) : Bool :=
  decide (a.2 < b.2) || (decide (a.2 = b.2) && decide (a.1 ≤ b.1))

/-- Modelled from the spec: the k-nearest-neighbour query of `smooth.c`
(not under `src/`).  Spec §4.1: returns the `min(k, activeParticleCount)`
nearest particles to the query particle's position, deterministically
ordered, as (physical index, squared distance) pairs. -/
def kNN (kd : KD) (k : Nat) (i : Nat) : List (Nat × Int) :=
  (isort distLe ((List.range kd.nActive).map
    (fun j => (j, dist2 (posOf kd i) (posOf kd j))))).take k

/-- The resolved smoothing length of a neighbour list: the distance to the
farthest of the returned neighbours (distances carried in squared form
throughout the embedding). -/
def resolvedSmooth (nbrs : List (Nat × Int)) : Int :=
  (nbrs.map Prod.snd).foldr max 0

/-- The `SMX` smoothing context (smooth.h): the bound tree, the target
neighbour count, the claim cursor, the physical index `pi` of the particle
claimed by the most recent step, and the neighbour scratch lists
`pList`/`fList`. -/
structure SMX where
  kd : KD
  nSmooth : Nat
  cursor : Nat
  pi : Nat
  pList : List Nat
  fList : List Int
deriving DecidableEq, Repr

/-- Modelled from the spec: `smSmoothInitStep` lives in `smooth.c`, not
under `src/`.  Spec §4.2 `rewind()`: resets the cursor to the start without
rebuilding the tree or reallocating scratch. -/
def smSmoothInitStep (smx : SMX) : SMX :=
  { smx with cursor := 0, pi := 0 }

/-- Modelled from the spec: `smSmoothStep` lives in `smooth.c`, not under
`src/`.  Spec §4.2: claim the next particle in physical index order; if the
cursor has passed the particle count report Done (`none`, cursor
unchanged); otherwise run a k-nearest-neighbour query with the target
neighbour count, store the neighbour lists in scratch, write the resolved
smoothing length into the bound smoothing-length field at the particle's
original index (spec §4.4), record the claimed index in `pi` and advance
the cursor. -/
def smSmoothStep (smx : SMX) : Option SMX :=
  if smx.cursor < smx.kd.nActive then
    some { smx with
      kd := setSmoothAt smx.kd (ordAt smx.kd smx.cursor)
              (resolvedSmooth (kNN smx.kd smx.nSmooth smx.cursor))
      cursor := smx.cursor + 1
      pi := smx.cursor
      pList := (kNN smx.kd smx.nSmooth smx.cursor).map Prod.fst
      fList := (kNN smx.kd smx.nSmooth smx.cursor).map Prod.snd }
  else none

/-- Embedding of `nn_next` (kdmain.c lines 231-275): run one smoothing
step; when it reports work done (`nCnt` ≠ 0) build the 4-element result
[claimed particle's cursor position `smx->pi`, the smoothing value read
back from the bound field at that particle's `iOrder`, neighbour index
list, neighbour distance list]; otherwise return `Py_None` (Done). -/
def nn_next (smx : SMX) : Option (Nat × Int × List Nat × List Int) × SMX :=
  match smSmoothStep smx with
  | none => (none, smx)
  | some t =>
      if t.pList.length ≠ 0 then
        (some (t.pi, getArr t.kd.pNumpySmooth (ordAt t.kd t.pi), t.pList, t.fList), t)
      else (none, t)

/-- Embedding of `nn_rewind` (kdmain.c lines 299-309): calls
`smSmoothInitStep` on the session. -/
def nn_rewind (smx : SMX) : SMX := smSmoothInitStep smx

theorem length_insertSorted (le : α → α → Bool) (a : α) (l : List α) :
    (insertSorted le a l).length = l.length + 1 := by
  induction l with
  | nil => rfl
  | cons b bs ih =>
      show (if le a b then a :: b :: bs else b :: insertSorted le a bs).length = _
      by_cases h : le a b = true
      · rw [if_pos h]
        simp
      · rw [if_neg h]
        simp [ih]

theorem length_isort (le : α → α → Bool) (l : List α) :
    (isort le l).length = l.length := by
  induction l with
  | nil => rfl
  | cons a as ih =>
      show (insertSorted le a (isort le as)).length = as.length + 1
      rw [length_insertSorted, ih]

theorem length_kNN (kd : KD) (k i : Nat) :
    (kNN kd k i).length = min k kd.nActive := by
  unfold kNN
  rw [List.length_take, length_isort, List.length_map, List.length_range]

/-- C8: A step on a session either returns the 4-element result — the
claimed particle's cursor position, that particle's resolved smoothing
length (the distance to the farthest of its `targetNeighborCount` nearest
neighbours, which the step stored in the bound smoothing field and the
result reads back), the neighbour index list and the neighbour distance
list — or returns Done once the cursor has passed the last particle; a
Done step returns the session unchanged, so every subsequent step is also
Done until `rewind` resets the cursor to the start. -/
theorem nn_next_protocol (smx : SMX) :
    (smx.kd.nActive ≤ smx.cursor → nn_next smx = (none, smx)) ∧
      (∀ sb : Buffer, smx.kd.pNumpySmooth = some sb →
        ordAt smx.kd smx.cursor < sb.data.length →
        smx.cursor < smx.kd.nActive → 1 ≤ smx.nSmooth →
        (nn_next smx).1 = some (smx.cursor,
            resolvedSmooth (kNN smx.kd smx.nSmooth smx.cursor),
            (kNN smx.kd smx.nSmooth smx.cursor).map Prod.fst,
            (kNN smx.kd smx.nSmooth smx.cursor).map Prod.snd) ∧
          (nn_next smx).2.cursor = smx.cursor + 1) ∧
      ((nn_rewind smx).cursor = 0 ∧ (nn_rewind smx).kd = smx.kd ∧
        (nn_rewind smx).nSmooth = smx.nSmooth) := by
  refine ⟨?_, ?_, rfl, rfl, rfl⟩
  · intro hdone
    have hstep : smSmoothStep smx = none := by
      unfold smSmoothStep
      rw [if_neg (by omega)]
    unfold nn_next
    rw [hstep]
  · intro sb hsb hord hcur hk
    have hstep : smSmoothStep smx = some { smx with
        kd := setSmoothAt smx.kd (ordAt smx.kd smx.cursor)
                (resolvedSmooth (kNN smx.kd smx.nSmooth smx.cursor))
        cursor := smx.cursor + 1
        pi := smx.cursor
        pList := (kNN smx.kd smx.nSmooth smx.cursor).map Prod.fst
        fList := (kNN smx.kd smx.nSmooth smx.cursor).map Prod.snd } := by
      unfold smSmoothStep
      rw [if_pos hcur]
    have hlen : ((kNN smx.kd smx.nSmooth smx.cursor).map Prod.fst).length ≠ 0 := by
      rw [List.length_map, length_kNN]
      omega
    unfold nn_next
    rw [hstep]
    dsimp only
    rw [if_pos hlen]
    dsimp only
    refine ⟨?_, rfl⟩
    rw [ordAt_setSmoothAt]
    rw [getArr_setSmoothAt_self smx.kd sb hsb _ hord]

/-- Session used as a concrete witness input: two particles, smoothing
buffer bound, target neighbour count 1, cursor at the start. -/
def demoSmx : SMX :=
  { kd := (set_arrayref (kdinitState [⟨0,0,0⟩, ⟨1,0,0⟩] ⟨'f', 8, [1,1]⟩ 1) 0
            ⟨'f', 8, [0,0]⟩).1
    nSmooth := 1
    cursor := 0
    pi := 0
    pList := []
    fList := [] }

/-- Witness for C8 at the concrete session `demoSmx`. -/
theorem nn_next_protocol_witness :
    (demoSmx.kd.pNumpySmooth = some ⟨'f', 8, [0,0]⟩ ∧
      ordAt demoSmx.kd demoSmx.cursor < (Buffer.mk 'f' 8 [0,0]).data.length ∧
      demoSmx.cursor < demoSmx.kd.nActive ∧ 1 ≤ demoSmx.nSmooth) ∧
      ((nn_next demoSmx).1 = some (demoSmx.cursor,
          resolvedSmooth (kNN demoSmx.kd demoSmx.nSmooth demoSmx.cursor),
          (kNN demoSmx.kd demoSmx.nSmooth demoSmx.cursor).map Prod.fst,
          (kNN demoSmx.kd demoSmx.nSmooth demoSmx.cursor).map Prod.snd) ∧
        (nn_next demoSmx).2.cursor = demoSmx.cursor + 1) :=
  ⟨⟨by decide, by decide, by decide, by decide⟩,
    (nn_next_protocol demoSmx).2.1 ⟨'f', 8, [0,0]⟩ (by decide) (by decide) (by decide)
      (by decide)⟩

/- ------------------------------------------------------------------ -/
/- The parallel property pipeline: populate (C5, C6).                  -/
/- ------------------------------------------------------------------ -/

/-- Property ids (kdmain.c lines 67-70). -/
def PROPID_HSM : Int := 1

/-- Density property id. -/
def PROPID_RHO : Int := 2

/-- One-dimensional quantity property id. -/
def PROPID_QTY1D : Int := 3

/-- k-D quantity property id. -/
def PROPID_QTYKD : Int := 4

/-- The `GETSMOOTH(i)` macro (smooth.h, not under `src/`; standard pynbody
definition): read the smoothing field at physical particle `i`'s original
index. -/
def GETSMOOTH (kd : KD) (i : Nat) : Int := getArr kd.pNumpySmooth (ordAt kd i)

/-- Mass of the physical particle `q`, read through its `iOrder`. -/
def massOfP (kd : KD) (q : Nat) : Int := getArr kd.pNumpyMass (ordAt kd q)

/-- Read the density field at original index `j`. -/
def denAt (kd : KD) (j : Nat) : Int := getArr kd.pNumpyDen j

/-- Length of the bound density buffer (0 when unbound). -/
def denLen (kd : KD) : Nat :=
  match kd.pNumpyDen with
  | none => 0
  | some b => b.data.length

/-- Write value `v` at index `j` of the density buffer; identity when no
density buffer is bound. -/
def setDenAt (kd : KD) (j : Nat) (v : Int) : KD :=
  match kd.pNumpyDen with
  | none => kd
  | some b => { kd with pNumpyDen := some { b with data := b.data.set j v } }

/-- Modelled from the spec: `smBallGather` lives in `smooth.c`, not under
`src/`.  Spec §4.1 `query_ball`: return every active particle whose squared
distance to the query point is at most `radiusSquared`, as (physical index,
squared distance) pairs. -/
def smBallGather (kd : KD) (r2 : Int) (ri : Vec3) : List (Nat × Int) :=
  (List.range kd.nActive).filterMap (fun j =>
    if dist2 ri (posOf kd j) ≤ r2 then some (j, dist2 ri (posOf kd j)) else none)

/-- Kernel-weighted sum of the gathered neighbours' masses: each neighbour
contributes its mass weighted by the smoothing kernel `K` evaluated at its
squared distance and the owning particle's smoothing length. -/
def densitySum (K : Int → Int → Int) (kd : KD) (h : Int) (nbrs : List (Nat × Int)) : Int :=
  (nbrs.map (fun jd => K jd.2 h * massOfP kd jd.1)).sum

/-- Modelled from the spec: `smDensity` lives in `smooth.c`, not under
`src/`.  Spec §4.4: reduce the gathered neighbour set with a kernel-weighted
sum of neighbour masses and write the result into the bound density field at
the claimed particle's original index.  The kernel function `K` itself is an
explicit parameter of the model (its closed form is not part of the spec). -/
def smDensity (K : Int → Int → Int) (kd : KD) (i : Nat) (nbrs : List (Nat × Int)) : KD :=
  setDenAt kd (ordAt kd i) (densitySum K kd (GETSMOOTH kd i) nbrs)

/-- The density the RHO loop body computes for physical particle `i` on
state `kd`: the kernel-weighted mass sum over the ball gather of squared
radius exactly `4·h·h` centred on `i`'s position, where `h` is the value
currently stored in the bound smoothing field for `i`. -/
def densityValue (K : Int → Int → Int) (kd : KD) (i : Nat) : Int :=
  densitySum K kd (GETSMOOTH kd i)
    (smBallGather kd (4 * GETSMOOTH kd i * GETSMOOTH kd i) (posOf kd i))

/-- One iteration of the `PROPID_RHO` loop of `populate` (kdmain.c lines
495-519): copy the claimed particle's position (read through `iOrder`),
fetch its stored smoothing length, gather the ball of squared radius
`4*hsm*hsm`, and run `smDensity` on the gathered list. -/
def rhoStep (K : Int → Int → Int) (kd : KD) (i : Nat) : KD :=
  smDensity K kd i
    (smBallGather kd (4 * GETSMOOTH kd i * GETSMOOTH kd i) (posOf kd i))

/-- The full `PROPID_RHO` pass.  Modelled from the spec for the claim
order: `smGetNext` (smooth.c, not under `src/`) hands the single worker
every physical index `0 … nbodies-1` exactly once, in order, where
`nbodies = PyArray_DIM(kd->pNumpyPos, 0)`. -/
def rhoPass (K : Int → Int → Int) (kd : KD) : KD :=
  (List.range kd.pNumpyPos.length).foldl (rhoStep K) kd

/-- The full `PROPID_HSM` pass: repeated `smSmoothStep` claims, each
writing the resolved smoothing length at the claimed particle's original
index (spec §4.4; step order modelled as for `rhoPass`). -/
def hsmPass (kd : KD) (k : Nat) : KD :=
  (List.range kd.pNumpyPos.length).foldl
    (fun a i => setSmoothAt a (ordAt a i) (resolvedSmooth (kNN a k i))) kd

/-- The validation prologue of `populate` (kdmain.c lines 460-469), in
source order: check the smoothing binding; for `propid > PROPID_HSM`
additionally check density, mass and (again) smoothing; for
`propid > PROPID_RHO` additionally check the quantity bindings.  The first
failing check aborts with its error. -/
def validatePopulate (kd : KD) (propid : Int) : Option PyErr :=
  match checkArray kd.pNumpySmooth with
  | some e => some e
  | none =>
      match (if PROPID_HSM < propid then
               match checkArray kd.pNumpyDen with
               | some e => some e
               | none =>
                   match checkArray kd.pNumpyMass with
                   | some e => some e
                   | none => checkArray kd.pNumpySmooth
             else none) with
      | some e => some e
      | none =>
          if PROPID_RHO < propid then
            match checkArray kd.pNumpyQty with
            | some e => some e
            | none => checkArray kd.pNumpyQtySmoothed
          else none

/-- Embedding of `populate` (kdmain.c lines 429-579): validate the required
bindings eagerly; on any failure return the error with the state untouched
(every error `return NULL` precedes the thread-local copy and the loops);
otherwise dispatch the property pass.  Unknown property ids fall through
the switch and change nothing.  `procid` is carried for signature fidelity;
the claim order is the single-worker order (see `rhoPass`). -/
def populate (K : Int → Int → Int) (kd : KD) (smx : SMX) (propid procid : Int) :
    KD × Option PyErr :=
  match validatePopulate kd propid with
  | some e => (kd, some e)
  | none =>
      if propid = PROPID_HSM then (hsmPass kd smx.nSmooth, none)
      else if propid = PROPID_RHO then (rhoPass K kd, none)
      else (kd, none)

theorem validatePopulate_rho_none_iff (kd : KD) :
    validatePopulate kd PROPID_RHO = none ↔
      (checkArray kd.pNumpySmooth = none ∧ checkArray kd.pNumpyDen = none ∧
        checkArray kd.pNumpyMass = none) := by
  have h1 : PROPID_HSM < PROPID_RHO := by decide
  have h2 : ¬ (PROPID_RHO < PROPID_RHO) := by decide
  unfold validatePopulate
  cases hs : checkArray kd.pNumpySmooth with
  | some e => simp [hs]
  | none =>
      rw [if_pos h1]
      cases hd : checkArray kd.pNumpyDen with
      | some e => simp [hd]
      | none =>
          cases hm : checkArray kd.pNumpyMass with
          | some e => simp [hm]
          | none => simp [hs, hm, if_neg h2]

/-- C6: `populate` with the Density property, when any of the
smoothing-length, density, or mass field bindings is absent or mistyped,
fails during the eager validation prologue — before the thread-local copy
is made or any neighbour query runs — and performs no writes: the state
(hence every output field buffer) is returned exactly as it was. -/
theorem populate_rho_gate (K : Int → Int → Int) (kd : KD) (smx : SMX) (procid : Int)
    (h : checkArray kd.pNumpySmooth ≠ none ∨ checkArray kd.pNumpyDen ≠ none ∨
      checkArray kd.pNumpyMass ≠ none) :
    (populate K kd smx PROPID_RHO procid).1 = kd ∧
      (populate K kd smx PROPID_RHO procid).2.isSome = true := by
  have hv : validatePopulate kd PROPID_RHO ≠ none := by
    intro hnone
    have hall := (validatePopulate_rho_none_iff kd).mp hnone
    rcases h with h | h | h
    · exact h hall.1
    · exact h hall.2.1
    · exact h hall.2.2
  cases he : validatePopulate kd PROPID_RHO with
  | none => exact absurd he hv
  | some e =>
      unfold populate
      rw [he]
      exact ⟨rfl, rfl⟩

/-- Witness for C6: a freshly built index (no smoothing binding) makes the
Density pass fail with the state unchanged. -/
theorem populate_rho_gate_witness :
    checkArray demoKd2.pNumpySmooth ≠ none ∧
      ((populate (fun _ _ => 1) demoKd2 demoSmx PROPID_RHO 0).1 = demoKd2 ∧
        (populate (fun _ _ => 1) demoKd2 demoSmx PROPID_RHO 0).2.isSome = true) :=
  ⟨by decide,
    populate_rho_gate (fun _ _ => 1) demoKd2 demoSmx 0 (Or.inl (by decide))⟩

/- ------------------------------------------------------------------ -/
/- C5: the density pass writes the right value at the right place.     -/
/- ------------------------------------------------------------------ -/

/-- Two states agreeing on everything the RHO loop body reads (the density
pass writes only the density buffer). -/
def SameExceptDen (a b : KD) : Prop :=
  a.p = b.p ∧ a.pNumpyPos = b.pNumpyPos ∧ a.pNumpySmooth = b.pNumpySmooth ∧
    a.pNumpyMass = b.pNumpyMass ∧ a.nActive = b.nActive

theorem sed_refl (a : KD) : SameExceptDen a a := ⟨rfl, rfl, rfl, rfl, rfl⟩

theorem sed_trans {a b c : KD} (h1 : SameExceptDen a b) (h2 : SameExceptDen b c) :
    SameExceptDen a c :=
  ⟨h1.1.trans h2.1, h1.2.1.trans h2.2.1, h1.2.2.1.trans h2.2.2.1,
    h1.2.2.2.1.trans h2.2.2.2.1, h1.2.2.2.2.trans h2.2.2.2.2⟩

theorem sed_setDenAt (kd : KD) (j : Nat) (v : Int) :
    SameExceptDen (setDenAt kd j v) kd := by
  unfold setDenAt
  cases kd.pNumpyDen with
  | none => exact sed_refl kd
  | some b => exact ⟨rfl, rfl, rfl, rfl, rfl⟩

theorem ordAt_congr {a b : KD} (h : SameExceptDen a b) (i : Nat) :
    ordAt a i = ordAt b i := by
  unfold ordAt pAt
  rw [h.1]

theorem posOf_congr {a b : KD} (h : SameExceptDen a b) (i : Nat) :
    posOf a i = posOf b i := by
  unfold posOf
  rw [h.2.1, ordAt_congr h]

theorem GETSMOOTH_congr {a b : KD} (h : SameExceptDen a b) (i : Nat) :
    GETSMOOTH a i = GETSMOOTH b i := by
  unfold GETSMOOTH
  rw [h.2.2.1, ordAt_congr h]

theorem massOfP_congr {a b : KD} (h : SameExceptDen a b) (q : Nat) :
    massOfP a q = massOfP b q := by
  unfold massOfP
  rw [h.2.2.2.1, ordAt_congr h]

theorem smBallGather_congr {a b : KD} (h : SameExceptDen a b) (r2 : Int) (ri : Vec3) :
    smBallGather a r2 ri = smBallGather b r2 ri := by
  unfold smBallGather
  rw [h.2.2.2.2]
  refine List.filterMap_congr ?_
  intro j _
  rw [posOf_congr h]

theorem densitySum_congr (K : Int → Int → Int) {a b : KD} (h : SameExceptDen a b)
    (hh : Int) (nbrs : List (Nat × Int)) :
    densitySum K a hh nbrs = densitySum K b hh nbrs := by
  unfold densitySum
  refine congrArg List.sum (List.map_congr_left ?_)
  intro jd _
  rw [massOfP_congr h]

theorem densityValue_congr (K : Int → Int → Int) {a b : KD} (h : SameExceptDen a b)
    (i : Nat) : densityValue K a i = densityValue K b i := by
  unfold densityValue
  rw [GETSMOOTH_congr h, posOf_congr h, smBallGather_congr h, densitySum_congr K h]

theorem rhoStep_eq (K : Int → Int → Int) (kd : KD) (i : Nat) :
    rhoStep K kd i = setDenAt kd (ordAt kd i) (densityValue K kd i) := rfl

theorem denLen_setDenAt (kd : KD) (j : Nat) (v : Int) :
    denLen (setDenAt kd j v) = denLen kd := by
  cases hb : kd.pNumpyDen with
  | none => unfold setDenAt; rw [hb]
  | some b =>
      unfold setDenAt denLen
      rw [hb]
      simp

theorem denAt_setDenAt_self (kd : KD) (j : Nat) (v : Int) (h : j < denLen kd) :
    denAt (setDenAt kd j v) j = v := by
  cases hb : kd.pNumpyDen with
  | none =>
      unfold denLen at h
      rw [hb] at h
      simp at h
  | some b =>
      unfold denLen at h
      rw [hb] at h
      unfold setDenAt denAt
      rw [hb]
      simpa [getArr] using getD_set_self b.data j v h

theorem denAt_setDenAt_ne (kd : KD) (j m : Nat) (v : Int) (h : j ≠ m) :
    denAt (setDenAt kd j v) m = denAt kd m := by
  cases hb : kd.pNumpyDen with
  | none => unfold setDenAt; rw [hb]
  | some b =>
      unfold setDenAt denAt
      rw [hb]
      simpa [getArr] using getD_set_ne b.data j m v h

theorem sed_rhoFold (K : Int → Int → Int) (l : List Nat) :
    ∀ (kd kd0 : KD), SameExceptDen kd kd0 →
      SameExceptDen (l.foldl (rhoStep K) kd) kd0 := by
  induction l with
  | nil => intro kd kd0 h; exact h
  | cons a t ih =>
      intro kd kd0 h
      exact ih _ _ (sed_trans (by rw [rhoStep_eq]; exact sed_setDenAt kd _ _) h)

theorem denLen_rhoFold (K : Int → Int → Int) (l : List Nat) :
    ∀ kd : KD, denLen (l.foldl (rhoStep K) kd) = denLen kd := by
  induction l with
  | nil => intro kd; rfl
  | cons a t ih =>
      intro kd
      show denLen (t.foldl (rhoStep K) (rhoStep K kd a)) = denLen kd
      rw [ih, rhoStep_eq, denLen_setDenAt]

theorem denAt_rhoFold_frame (K : Int → Int → Int) (l : List Nat) :
    ∀ (kd kd0 : KD), SameExceptDen kd kd0 → ∀ m : Nat,
      (∀ i ∈ l, ordAt kd0 i ≠ m) →
      denAt (l.foldl (rhoStep K) kd) m = denAt kd m := by
  induction l with
  | nil => intro kd kd0 _ m _; rfl
  | cons a t ih =>
      intro kd kd0 hsed m hm
      have hsed1 : SameExceptDen (rhoStep K kd a) kd0 :=
        sed_trans (by rw [rhoStep_eq]; exact sed_setDenAt kd _ _) hsed
      show denAt (t.foldl (rhoStep K) (rhoStep K kd a)) m = denAt kd m
      rw [ih _ kd0 hsed1 m (fun i hi => hm i (List.mem_cons_of_mem a hi))]
      rw [rhoStep_eq]
      refine denAt_setDenAt_ne kd _ m _ ?_
      rw [ordAt_congr hsed]
      exact hm a (List.mem_cons_self a t)

theorem denAt_rhoFold_main (K : Int → Int → Int) (l : List Nat) :
    ∀ (kd kd0 : KD), SameExceptDen kd kd0 → denLen kd = denLen kd0 → l.Nodup →
      (∀ i ∈ l, ∀ j ∈ l, ordAt kd0 i = ordAt kd0 j → i = j) →
      ∀ i ∈ l, ordAt kd0 i < denLen kd0 →
        denAt (l.foldl (rhoStep K) kd) (ordAt kd0 i) = densityValue K kd0 i := by
  induction l with
  | nil => intro kd kd0 _ _ _ _ i hi; exact absurd hi (List.not_mem_nil i)
  | cons a t ih =>
      intro kd kd0 hsed hdl hnd hinj i hi hbound
      have hsed1 : SameExceptDen (rhoStep K kd a) kd0 :=
        sed_trans (by rw [rhoStep_eq]; exact sed_setDenAt kd _ _) hsed
      have hdl1 : denLen (rhoStep K kd a) = denLen kd0 := by
        rw [rhoStep_eq, denLen_setDenAt, hdl]
      rcases List.mem_cons.mp hi with hia | hit
      · subst hia
        show denAt (t.foldl (rhoStep K) (rhoStep K kd i)) (ordAt kd0 i) = _
        have hfr : ∀ j ∈ t, ordAt kd0 j ≠ ordAt kd0 i := by
          intro j hj heq
          have : j = i := hinj j (List.mem_cons_of_mem i hj) i (List.mem_cons_self i t) heq
          subst this
          exact (List.nodup_cons.mp hnd).1 hj
        rw [denAt_rhoFold_frame K t _ kd0 hsed1 _ hfr]
        rw [rhoStep_eq]
        rw [ordAt_congr hsed]
        rw [denAt_setDenAt_self kd _ _ (by rw [hdl]; exact hbound)]
        exact densityValue_congr K hsed i
      · exact ih _ kd0 hsed1 hdl1 (List.nodup_cons.mp hnd).2
          (fun x hx y hy => hinj x (List.mem_cons_of_mem a hx) y (List.mem_cons_of_mem a hy))
          i hit hbound

/-- C5: When the Density pass validates, then for every particle claimed
during it (the single worker claims every physical index `i < nbodies`),
the pipeline gathers the ball of squared radius exactly `4·h·h` centred on
that particle's position — `h` being the value currently stored in the
bound smoothing-length field for that particle — and the kernel-weighted
sum of the gathered neighbours' masses ends up in the bound density field
at the particle's original index (`densityValue` is by definition that
kernel-weighted ball-gather sum evaluated on the pre-pass state). -/
theorem populate_rho_density (K : Int → Int → Int) (kd : KD) (smx : SMX) (procid : Int)
    (hval : validatePopulate kd PROPID_RHO = none)
    (hinj : ∀ i < kd.pNumpyPos.length, ∀ j < kd.pNumpyPos.length,
      ordAt kd i = ordAt kd j → i = j)
    (hbound : ∀ i < kd.pNumpyPos.length, ordAt kd i < denLen kd) :
    ∀ i < kd.pNumpyPos.length,
      denAt (populate K kd smx PROPID_RHO procid).1 (ordAt kd i) = densityValue K kd i := by
  intro i hi
  have hpop : populate K kd smx PROPID_RHO procid = (rhoPass K kd, none) := by
    unfold populate
    rw [hval]
    rw [if_neg (by decide), if_pos rfl]
  rw [hpop]
  unfold rhoPass
  exact denAt_rhoFold_main K (List.range kd.pNumpyPos.length) kd kd (sed_refl kd) rfl
    (List.nodup_range _)
    (fun x hx y hy => hinj x (List.mem_range.mp hx) y (List.mem_range.mp hy))
    i (List.mem_range.mpr hi) (hbound i hi)

/-- A one-particle index with smoothing, density and mass all validly
bound (mass bound at build time). -/
def demoKd5 : KD :=
  (set_arrayref
    ((set_arrayref (kdinitState [⟨0,0,0⟩] ⟨'f', 8, [2]⟩ 1) 0 ⟨'f', 8, [1]⟩).1)
    1 ⟨'f', 8, [0]⟩).1

/-- Witness for C5: on `demoKd5` with the constant kernel, the density pass
deposits the expected ball-gather sum at particle 0's original index. -/
theorem populate_rho_density_witness :
    (validatePopulate demoKd5 PROPID_RHO = none ∧
      (∀ i < demoKd5.pNumpyPos.length, ∀ j < demoKd5.pNumpyPos.length,
        ordAt demoKd5 i = ordAt demoKd5 j → i = j) ∧
      (∀ i < demoKd5.pNumpyPos.length, ordAt demoKd5 i < denLen demoKd5) ∧
      0 < demoKd5.pNumpyPos.length) ∧
      denAt (populate (fun _ _ => 1) demoKd5 demoSmx PROPID_RHO 0).1 (ordAt demoKd5 0) =
        densityValue (fun _ _ => 1) demoKd5 0 :=
  ⟨⟨by decide, by decide, by decide, by decide⟩,
    populate_rho_density (fun _ _ => 1) demoKd5 demoSmx 0 (by decide) (by decide)
      (by decide) 0 (by decide)⟩

end Kdmain
